import Mathlib

/-!
Verification of the indicator-and-charting engine of a terminal stock-analysis
application.  The Python source consists of a `StockAnalyzer` class (moving
average, RSI, latest price, price change, trend) and a `StockApp._show_price_chart`
terminal renderer.  Prices are modelled as exact rationals (`ℚ`); Python's
`round(x, 2)` is modelled by `round2`; the Python `None` marker in indicator
series is modelled by `Option ℚ`.  Sites where the Python code can raise
(division or modulo by zero, `min`/`max` of an empty sequence) are modelled
explicitly: by `Prop`-valued raise predicates for the analyzer queries and by an
`Except` result for the chart renderer.
-/

/-- One trading-day record: the dict
`{'date': …, 'open': …, 'high': …, 'low': …, 'close': …, 'volume': …}`
produced by the data generator.  The Python field `open` is spelled `opn`
because `open` is a Lean keyword. -/
structure DailyRecord where
  date : String
  opn : ℚ
  high : ℚ
  low : ℚ
  close : ℚ
  volume : ℕ
  deriving DecidableEq, Repr

/-- Rounding to 2 decimal places, modelling Python's `round(x, 2)` on the
exact rational value. -/
def round2 (x : ℚ) : ℚ := ((round (x * 100) : ℤ) : ℚ) / 100

/-- The closing-price projection `[d['close'] for d in data]`. -/
def closes (data : List DailyRecord) : List ℚ := data.map DailyRecord.close

/-- `StockAnalyzer.calculate_moving_average(days)`: if the sequence is shorter
than `days`, a list of `None`s of the input length; otherwise position `i` is
`None` for `i < days - 1` and `round(mean(close[i-days+1 .. i]), 2)` otherwise. -/
def calculate_moving_average (data : List DailyRecord) (days : ℕ) : List (Option ℚ) :=
  if data.length < days then List.replicate data.length none
  else
    (List.range data.length).map fun i =>
      if i < days - 1 then none
      else some (round2 ((((closes data).drop (i + 1 - days)).take days).sum / (days : ℚ)))

/-- The delta list `[close[i] - close[i-1] for i in range(1, len(data))]`
(0-indexed: entry `k` is `close[k+1] - close[k]`). -/
def rsi_deltas (data : List DailyRecord) : List ℚ :=
  (List.range (data.length - 1)).map fun k =>
    (closes data).getD (k + 1) 0 - (closes data).getD k 0

/-- The slice `deltas[i-period : i]` used at output position `i` of the RSI. -/
def rsi_recent_deltas (data : List DailyRecord) (period i : ℕ) : List ℚ :=
  ((rsi_deltas data).drop (i - period)).take period

/-- `avg_gain`: sum of the positive recent deltas divided by `period`. -/
def rsi_avg_gain (data : List DailyRecord) (period i : ℕ) : ℚ :=
  ((rsi_recent_deltas data period i).filter (fun d => decide (0 < d))).sum / (period : ℚ)

/-- `avg_loss`: absolute value of the sum of the negative recent deltas,
divided by `period`. -/
def rsi_avg_loss (data : List DailyRecord) (period i : ℕ) : ℚ :=
  |((rsi_recent_deltas data period i).filter (fun d => decide (d < 0))).sum| / (period : ℚ)

/-- `StockAnalyzer.calculate_rsi(period)`: `None`s when fewer than `period + 1`
records exist; otherwise position `i ≥ period` carries `100` when `avg_loss = 0`
and `round(100 - 100 / (1 + avg_gain / avg_loss), 2)` otherwise. -/
def calculate_rsi (data : List DailyRecord) (period : ℕ) : List (Option ℚ) :=
  if data.length < period + 1 then List.replicate data.length none
  else
    (List.range data.length).map fun i =>
      if i < period then none
      else if rsi_avg_loss data period i = 0 then some 100
      else some (round2 (100 - 100 / (1 + rsi_avg_gain data period i / rsi_avg_loss data period i)))

/-- `StockAnalyzer.get_latest_price`: `data[-1]['close'] if data else 0`. -/
def get_latest_price (data : List DailyRecord) : ℚ :=
  match data.getLast? with
  | some r => r.close
  | none => 0

/-- `StockAnalyzer.get_price_change`: `(0, 0)` when fewer than 2 records exist,
otherwise the rounded difference and rounded percentage change of the last two
closes. -/
def get_price_change (data : List DailyRecord) : ℚ × ℚ :=
  if data.length < 2 then (0, 0)
  else
    (round2 ((closes data).getD (data.length - 1) 0 - (closes data).getD (data.length - 2) 0),
     round2 (((closes data).getD (data.length - 1) 0 - (closes data).getD (data.length - 2) 0) /
       (closes data).getD (data.length - 2) 0 * 100))

/-- The local `recent_prices = [d['close'] for d in self.data[-5:]]` of
`get_trend`. -/
def recent_prices (data : List DailyRecord) : List ℚ :=
  (closes data).drop (data.length - 5)

/-- `StockAnalyzer.get_trend`: the Python method returns the strings
`"无法判断"` (indeterminate), `"上升"` (rising), `"下降"` (falling),
`"横盘"` (flat), deciding on the sign of
`slope = (recent_prices[-1] - recent_prices[0]) / 4` over the last 5 closes. -/
def get_trend (data : List DailyRecord) : String :=
  if data.length < 5 then "无法判断"
  else
    if 0 < ((recent_prices data).getD 4 0 - (recent_prices data).getD 0 0) / 4 then "上升"
    else if ((recent_prices data).getD 4 0 - (recent_prices data).getD 0 0) / 4 < 0 then "下降"
    else "横盘"

/-- Condition under which the Python body of `calculate_moving_average`
executes a division whose divisor is zero (the only raise site in the method):
the else branch is taken, the loop reaches an index with `i < days - 1` false
(evaluated over ℤ, as Python does), and the divisor `days` is `0`. -/
def ma_raises (data : List DailyRecord) (days : ℕ) : Prop :=
  ¬ data.length < days ∧
    ∃ i, i < data.length ∧ ¬ ((i : ℤ) < (days : ℤ) - 1) ∧ days = 0

/-- Condition under which the Python body of `calculate_rsi` executes a
division whose divisor is zero: the else branch is taken and, at some loop
index, either the fixed divisor `period` is `0`, or the guarded division
`100 / (1 + avg_gain / avg_loss)` has divisor zero. -/
def rsi_raises (data : List DailyRecord) (period : ℕ) : Prop :=
  ¬ data.length < period + 1 ∧
    ∃ i, period ≤ i ∧ i < data.length ∧
      (period = 0 ∨ (rsi_avg_loss data period i ≠ 0 ∧
        1 + rsi_avg_gain data period i / rsi_avg_loss data period i = 0))

/-- Condition under which the Python body of `get_price_change` executes a
division whose divisor is zero: at least 2 records and `prev = data[-2]['close']`
equal to zero. -/
def price_change_raises (data : List DailyRecord) : Prop :=
  ¬ data.length < 2 ∧ (closes data).getD (data.length - 2) 0 = 0

/-- The `StockAnalyzer` object: it holds a reference to the record sequence
set once in `__init__`. -/
structure StockAnalyzer where
  data : List DailyRecord

/-- One query message understood by `StockAnalyzer`. -/
inductive AnalyzerQuery where
  | movingAverage (days : ℕ)
  | rsi (period : ℕ)
  | latestPrice
  | priceChange
  | trend

/-- The result of one `StockAnalyzer` query. -/
inductive AnalyzerResult where
  | series (xs : List (Option ℚ))
  | price (p : ℚ)
  | change (c : ℚ × ℚ)
  | label (s : String)
  deriving DecidableEq

/-- Dispatch of one method call on a `StockAnalyzer` in state-passing form:
the result together with the post-call state.  Every Python method body only
reads `self.data` and assigns to no attribute, so the post-call state is the
receiver itself. -/
def runQuery (a : StockAnalyzer) : AnalyzerQuery → AnalyzerResult × StockAnalyzer
  | AnalyzerQuery.movingAverage d => (AnalyzerResult.series (calculate_moving_average a.data d), a)
  | AnalyzerQuery.rsi p => (AnalyzerResult.series (calculate_rsi a.data p), a)
  | AnalyzerQuery.latestPrice => (AnalyzerResult.price (get_latest_price a.data), a)
  | AnalyzerQuery.priceChange => (AnalyzerResult.change (get_price_change a.data), a)
  | AnalyzerQuery.trend => (AnalyzerResult.label (get_trend a.data), a)

/-- Python's `min(l)` for a nonempty list (a left fold of binary `min` over the
first element); the empty case never reaches this value because `min([])`
raises, which `render_chart` models as an error before use. -/
def list_min : List ℚ → ℚ
  | [] => 0
  | x :: xs => xs.foldl min x

/-- Python's `max(l)` for a nonempty list, as for `list_min`. -/
def list_max : List ℚ → ℚ
  | [] => 0
  | x :: xs => xs.foldl max x

/-- The resampling index `int(i * len(prices) / width)` of display column `c`. -/
def chart_idx (n width c : ℕ) : ℕ := c * n / width

/-- `scaled_prices`: each price normalised by
`(p - min_price) / price_range * (height - 1)` with the hard-coded
`height = 15`. -/
def chart_scaled (data : List DailyRecord) : List ℚ :=
  (closes data).map fun p =>
    (p - list_min (closes data)) /
      (list_max (closes data) - list_min (closes data)) * (15 - 1)

/-- The row marked in display column `c`:
`int(round(scaled_prices[int(c * len(prices) / width)]))` with the hard-coded
`width = min(80, len(prices))`. -/
def chart_row (data : List DailyRecord) (c : ℕ) : ℤ :=
  round ((chart_scaled data).getD
    (chart_idx (closes data).length (min 80 (closes data).length) c) 0)

/-- The output of `StockApp._show_price_chart`: the printed grid (top row
first, i.e. after the `reversed(chart)` print step), the two scale captions
and the date-label line. -/
structure ChartOutput where
  grid : List (List Char)
  maxPrice : ℚ
  minPrice : ℚ
  dateLine : String
  deriving DecidableEq

/-- `StockApp._show_price_chart` on a record sequence, with each Python raise
site modelled as an `Except.error`, in evaluation order:
`min(prices)`/`max(prices)` raise `ValueError` on an empty sequence; the
`scaled_prices` comprehension divides by `price_range` and raises
`ZeroDivisionError` when `max_price == min_price`; the `date_labels`
comprehension computes `i % (len(dates) // 5)` and raises `ZeroDivisionError`
when `len(dates) // 5 == 0`.  Cell `(r, c)` of the (pre-reversal) grid holds
the point glyph exactly when the single write for column `c` targets row `r`
(`chart_row` provably lies in `[0, 15)`, so the writes stay in range). -/
def render_chart (data : List DailyRecord) : Except String ChartOutput :=
  if (closes data).length = 0 then Except.error "ValueError"
  else if list_max (closes data) - list_min (closes data) = 0 then
    Except.error "ZeroDivisionError"
  else if (data.map DailyRecord.date).length / 5 = 0 then
    Except.error "ZeroDivisionError"
  else
    let dates := data.map DailyRecord.date
    let width := min 80 (closes data).length
    let date_labels := (List.range dates.length).map fun i =>
      if i % (dates.length / 5) = 0 then dates.getD i "" else ""
    let grid := ((List.range 15).map fun r =>
      (List.range width).map fun c =>
        if (r : ℤ) = chart_row data c then '•' else ' ').reverse
    let date_str := (List.range date_labels.length).foldl
      (fun s i =>
        if date_labels.getD i "" ≠ "" ∧ i % (date_labels.length / 5) = 0 then
          s ++ date_labels.getD i "" ++ "  "
        else s)
      "日期: "
    Except.ok ⟨grid, list_max (closes data), list_min (closes data), date_str.take 80⟩

/-! ### Sample data used by the witnesses -/

/-- Three records with closes `100, 101, 99`. -/
def sampleData : List DailyRecord :=
  [⟨"2024-01-01", 100, 101, 99, 100, 1000⟩,
   ⟨"2024-01-02", 101, 102, 100, 101, 1000⟩,
   ⟨"2024-01-03", 99, 100, 98, 99, 1000⟩]

/-- Four records with closes `100, 101, 99, 102`. -/
def sampleData4 : List DailyRecord :=
  sampleData ++ [⟨"2024-01-04", 102, 103, 101, 102, 1000⟩]

/-- Five records whose closes are all `100` (a flat series). -/
def flatData : List DailyRecord :=
  [⟨"2024-01-01", 100, 100, 100, 100, 1000⟩,
   ⟨"2024-01-02", 100, 100, 100, 100, 1000⟩,
   ⟨"2024-01-03", 100, 100, 100, 100, 1000⟩,
   ⟨"2024-01-04", 100, 100, 100, 100, 1000⟩,
   ⟨"2024-01-05", 100, 100, 100, 100, 1000⟩]

/-- Five records with closes `1, 2, 3, 4, 5`. -/
def trendDataA : List DailyRecord :=
  [⟨"2024-01-01", 1, 1, 1, 1, 1000⟩,
   ⟨"2024-01-02", 2, 2, 2, 2, 1000⟩,
   ⟨"2024-01-03", 3, 3, 3, 3, 1000⟩,
   ⟨"2024-01-04", 4, 4, 4, 4, 1000⟩,
   ⟨"2024-01-05", 5, 5, 5, 5, 1000⟩]

/-- Five records with closes `1, 50, 1/2, 30, 5`: the same endpoints as
`trendDataA` but different middle closes. -/
def trendDataB : List DailyRecord :=
  [⟨"2024-01-01", 1, 1, 1, 1, 1000⟩,
   ⟨"2024-01-02", 50, 50, 50, 50, 1000⟩,
   ⟨"2024-01-03", 1/2, 1/2, 1/2, 1/2, 1000⟩,
   ⟨"2024-01-04", 30, 30, 30, 30, 1000⟩,
   ⟨"2024-01-05", 5, 5, 5, 5, 1000⟩]

/-- Three records with strictly increasing closes `100, 101, 102`. -/
def sortedData : List DailyRecord :=
  [⟨"2024-01-01", 100, 101, 99, 100, 1000⟩,
   ⟨"2024-01-02", 101, 102, 100, 101, 1000⟩,
   ⟨"2024-01-03", 102, 103, 101, 102, 1000⟩]

/-! ### Helper lemmas -/

theorem getD_map_range {β : Type} (n : ℕ) (f : ℕ → β) (d : β) {i : ℕ} (h : i < n) :
    ((List.range n).map f).getD i d = f i := by
  rw [List.getD_eq_getElem _ _ (by simpa using h)]
  simp

theorem getD_map_fn {α β : Type} (f : α → β) (l : List α) (d : β) (d' : α) {i : ℕ}
    (h : i < l.length) : (l.map f).getD i d = f (l.getD i d') := by
  rw [List.getD_eq_getElem _ _ (by simpa using h), List.getD_eq_getElem _ _ h]
  simp

theorem getD_drop (l : List ℚ) (a k : ℕ) (h : a + k < l.length) :
    (l.drop a).getD k 0 = l.getD (a + k) 0 := by
  rw [List.getD_eq_getElem _ _ (by simp; omega), List.getD_eq_getElem _ _ h]
  rw [List.getElem_drop]

theorem getD_take (l : List ℚ) (n k : ℕ) (hk : k < n) (h : k < l.length) :
    (l.take n).getD k 0 = l.getD k 0 := by
  rw [List.getD_eq_getElem _ _ (by simp; omega), List.getD_eq_getElem _ _ h]
  simp

theorem round_mono_q {x y : ℚ} (h : x ≤ y) : round x ≤ round y := by
  rw [round_eq, round_eq]
  exact Int.floor_le_floor (by linarith)

theorem round2_nonneg {x : ℚ} (hx : 0 ≤ x) : 0 ≤ round2 x := by
  unfold round2
  have h : (0 : ℤ) ≤ round (x * 100) := by
    have h0 := round_mono_q (by linarith : (0 : ℚ) ≤ x * 100)
    simpa using h0
  exact div_nonneg (by exact_mod_cast h) (by norm_num)

theorem round2_le_100 {x : ℚ} (hx : x ≤ 100) : round2 x ≤ 100 := by
  unfold round2
  have h : round (x * 100) ≤ (10000 : ℤ) := by
    have h0 := round_mono_q (by linarith : x * 100 ≤ (10000 : ℚ))
    simpa using h0
  rw [div_le_iff₀ (by norm_num : (0 : ℚ) < 100)]
  calc ((round (x * 100) : ℤ) : ℚ) ≤ ((10000 : ℤ) : ℚ) := by exact_mod_cast h
    _ = 100 * 100 := by norm_num

theorem sorted_getD_mono {l : List ℚ} (hs : List.Sorted (· ≤ ·) l) {i j : ℕ}
    (hij : i ≤ j) (hj : j < l.length) : l.getD i 0 ≤ l.getD j 0 := by
  rcases eq_or_lt_of_le hij with rfl | hlt
  · exact le_refl _
  · rw [List.getD_eq_getElem _ _ (lt_of_le_of_lt hij hj), List.getD_eq_getElem _ _ hj]
    exact List.pairwise_iff_get.mp hs ⟨i, lt_of_le_of_lt hij hj⟩ ⟨j, hj⟩ hlt

theorem sum_filter_pos_nonneg (l : List ℚ) :
    0 ≤ (l.filter (fun d => decide (0 < d))).sum :=
  List.sum_nonneg fun _ hx => le_of_lt (of_decide_eq_true (List.mem_filter.mp hx).2)

theorem rsi_avg_gain_nonneg (data : List DailyRecord) (period i : ℕ) :
    0 ≤ rsi_avg_gain data period i :=
  div_nonneg (sum_filter_pos_nonneg _) (Nat.cast_nonneg _)

theorem rsi_avg_loss_nonneg (data : List DailyRecord) (period i : ℕ) :
    0 ≤ rsi_avg_loss data period i :=
  div_nonneg (abs_nonneg _) (Nat.cast_nonneg _)

theorem foldl_min_le_self (l : List ℚ) (a : ℚ) : l.foldl min a ≤ a := by
  induction l generalizing a with
  | nil => simp
  | cons x xs ih => exact le_trans (ih (min a x)) (min_le_left a x)

theorem foldl_min_le_mem {l : List ℚ} {x : ℚ} (h : x ∈ l) (a : ℚ) : l.foldl min a ≤ x := by
  induction l generalizing a with
  | nil => cases h
  | cons y ys ih =>
    rcases List.mem_cons.mp h with rfl | h'
    · exact le_trans (foldl_min_le_self ys (min a x)) (min_le_right a x)
    · exact ih h' (min a y)

theorem self_le_foldl_max (l : List ℚ) (a : ℚ) : a ≤ l.foldl max a := by
  induction l generalizing a with
  | nil => simp
  | cons x xs ih => exact le_trans (le_max_left a x) (ih (max a x))

theorem mem_le_foldl_max {l : List ℚ} {x : ℚ} (h : x ∈ l) (a : ℚ) : x ≤ l.foldl max a := by
  induction l generalizing a with
  | nil => cases h
  | cons y ys ih =>
    rcases List.mem_cons.mp h with rfl | h'
    · exact le_trans (le_max_right a x) (self_le_foldl_max ys (max a x))
    · exact ih h' (max a y)

theorem list_min_le_mem {l : List ℚ} {x : ℚ} (h : x ∈ l) : list_min l ≤ x := by
  cases l with
  | nil => cases h
  | cons y ys =>
    rcases List.mem_cons.mp h with rfl | h'
    · exact foldl_min_le_self ys x
    · exact foldl_min_le_mem h' y

theorem mem_le_list_max {l : List ℚ} {x : ℚ} (h : x ∈ l) : x ≤ list_max l := by
  cases l with
  | nil => cases h
  | cons y ys =>
    rcases List.mem_cons.mp h with rfl | h'
    · exact self_le_foldl_max ys x
    · exact mem_le_foldl_max h' y

theorem list_min_le_list_max {l : List ℚ} (h : l ≠ []) : list_min l ≤ list_max l := by
  cases l with
  | nil => exact absurd rfl h
  | cons y ys =>
    exact le_trans (list_min_le_mem (List.mem_cons_self y ys))
      (mem_le_list_max (List.mem_cons_self y ys))

/-! ### Claim theorems -/

/-- Claim C1: for every input sequence and every positive window `w`,
`calculate_moving_average(w)` returns a sequence of the same length as the
input in which every position `i < w - 1` carries the undefined marker, every
position `i ≥ w - 1` carries the arithmetic mean of the closes at records
`[i-w+1, i]` rounded to 2 decimal places, and when the input length is less
than `w` every position is undefined. -/
theorem spec_c1 (data : List DailyRecord) (w : ℕ) (hw : 0 < w) :
    (calculate_moving_average data w).length = data.length ∧
    (data.length < w → calculate_moving_average data w = List.replicate data.length none) ∧
    ∀ i, i < data.length →
      (calculate_moving_average data w).getD i none =
        if i < w - 1 then none
        else some (round2 ((((closes data).drop (i + 1 - w)).take w).sum / (w : ℚ))) := by
  unfold calculate_moving_average
  by_cases h : data.length < w
  · rw [if_pos h]
    refine ⟨List.length_replicate _ _, fun _ => rfl, fun i hi => ?_⟩
    rw [if_pos (by omega : i < w - 1)]
    rw [List.getD_eq_getElem _ _ (by simpa using hi)]
    simp
  · rw [if_neg h]
    refine ⟨by simp, fun h' => absurd h' h, fun i hi => ?_⟩
    exact getD_map_range _ _ _ hi

/-- Witness for C1: on three records with closes `100, 101, 99` and window 2,
the moving average has length 3, position 0 undefined and position 1 equal to
`round((100 + 101)/2, 2) = 100.5`. -/
theorem spec_c1_witness :
    (calculate_moving_average sampleData 2).length = 3 ∧
    (calculate_moving_average sampleData 2).getD 0 none = none ∧
    (calculate_moving_average sampleData 2).getD 1 none = some (201 / 2) := by
  have h := spec_c1 sampleData 2 (by norm_num)
  refine ⟨h.1.trans (by rfl), ?_, ?_⟩
  · rw [h.2.2 0 (by decide)]
    norm_num
  · rw [h.2.2 1 (by decide)]
    norm_num [closes, sampleData, round2, round_eq]

/-- Claim C7: `get_price_change` returns `(0, 0)` for every input of length 0
or 1; on the empty input `get_latest_price` returns 0, `get_trend` returns the
indeterminate label and `calculate_moving_average(5)` returns the empty
sequence. -/
theorem spec_c7 (data : List DailyRecord) (h : data.length ≤ 1) :
    get_price_change data = (0, 0) ∧
    get_latest_price ([] : List DailyRecord) = 0 ∧
    get_trend ([] : List DailyRecord) = "无法判断" ∧
    calculate_moving_average ([] : List DailyRecord) 5 = [] := by
  refine ⟨?_, rfl, rfl, rfl⟩
  unfold get_price_change
  rw [if_pos (by omega)]

/-- Witness for C7 at the one-record input. -/
theorem spec_c7_witness :
    get_price_change [(⟨"2024-01-01", 100, 101, 99, 100, 1000⟩ : DailyRecord)] = (0, 0) ∧
    get_latest_price ([] : List DailyRecord) = 0 ∧
    get_trend ([] : List DailyRecord) = "无法判断" ∧
    calculate_moving_average ([] : List DailyRecord) 5 = [] :=
  spec_c7 [⟨"2024-01-01", 100, 101, 99, 100, 1000⟩] (by decide)

/-- Claim C10: every `StockAnalyzer` query is idempotent: calling the same
query twice on the same instance yields an identical result, and no query
changes the analyzer state (the underlying record sequence). -/
theorem spec_c10 (a : StockAnalyzer) (q : AnalyzerQuery) :
    (runQuery (runQuery a q).2 q).1 = (runQuery a q).1 ∧ (runQuery a q).2 = a := by
  cases q <;> exact ⟨rfl, rfl⟩

/-- Claim C2: for every input of length `n` and positive period `p`,
`calculate_rsi(p)` has length `n`; all positions are undefined when fewer than
`p + 1` records exist; the window at a defined position `i` consists of the `p`
most recent deltas, `deltas[i-p .. i-1]`; `avg_gain`/`avg_loss` divide the
(absolute) sums of positive/negative deltas by exactly `p`; the value is `100`
exactly when `avg_loss = 0` and `round(100 - 100/(1 + avg_gain/avg_loss), 2)`
otherwise. -/
theorem spec_c2 (data : List DailyRecord) (p : ℕ) (hp : 0 < p) :
    (calculate_rsi data p).length = data.length ∧
    (data.length < p + 1 → calculate_rsi data p = List.replicate data.length none) ∧
    (∀ i, p ≤ i → i < data.length →
      (rsi_recent_deltas data p i).length = p ∧
      ∀ k, k < p →
        (rsi_recent_deltas data p i).getD k 0 = (rsi_deltas data).getD (i - p + k) 0) ∧
    ∀ i, i < data.length →
      (calculate_rsi data p).getD i none =
        if i < p then none
        else if rsi_avg_loss data p i = 0 then some 100
        else some (round2 (100 - 100 / (1 + rsi_avg_gain data p i / rsi_avg_loss data p i))) := by
  have hwin : ∀ i, p ≤ i → i < data.length →
      (rsi_recent_deltas data p i).length = p ∧
      ∀ k, k < p →
        (rsi_recent_deltas data p i).getD k 0 = (rsi_deltas data).getD (i - p + k) 0 := by
    intro i hpi hi
    have hdlen : (rsi_deltas data).length = data.length - 1 := by
      simp [rsi_deltas]
    constructor
    · simp only [rsi_recent_deltas, List.length_take, List.length_drop, hdlen]
      omega
    · intro k hk
      unfold rsi_recent_deltas
      rw [getD_take _ _ _ hk (by simp [hdlen]; omega), getD_drop _ _ _ (by omega)]
  unfold calculate_rsi
  by_cases h : data.length < p + 1
  · rw [if_pos h]
    refine ⟨List.length_replicate _ _, fun _ => rfl, hwin, fun i hi => ?_⟩
    rw [if_pos (by omega : i < p)]
    rw [List.getD_eq_getElem _ _ (by simpa using hi)]
    simp
  · rw [if_neg h]
    exact ⟨by simp, fun h' => absurd h' h, hwin, fun i hi => getD_map_range _ _ _ hi⟩

/-- Witness for C2: on four records with closes `100, 101, 99, 102` and
period 2, the RSI has length 4, position 1 undefined and position 2 equal to
`round(100 - 100/(1 + (1/2)/1), 2) = 33.33`. -/
theorem spec_c2_witness :
    (calculate_rsi sampleData4 2).length = 4 ∧
    (calculate_rsi sampleData4 2).getD 1 none = none ∧
    (calculate_rsi sampleData4 2).getD 2 none = some (3333 / 100) := by
  have h := spec_c2 sampleData4 2 (by norm_num)
  refine ⟨h.1.trans (by rfl), ?_, ?_⟩
  · rw [h.2.2.2 1 (by decide)]
    norm_num
  · rw [h.2.2.2 2 (by decide)]
    norm_num [rsi_avg_loss, rsi_avg_gain, rsi_recent_deltas, rsi_deltas, closes, sampleData4,
      sampleData, round2, round_eq, List.filter]

/-- Claim C4: on well-formed inputs (positive closes) and positive
window/period arguments, no analyzer query reaches a division by zero (the
only exception sites), and every degenerate input (empty sequence,
insufficient length) yields the documented sentinel result. -/
theorem spec_c4 (data : List DailyRecord) (w p : ℕ) (hw : 0 < w) (hp : 0 < p)
    (hpos : ∀ r ∈ data, 0 < r.close) :
    ¬ ma_raises data w ∧ ¬ rsi_raises data p ∧ ¬ price_change_raises data ∧
    (data.length < w → ∀ x ∈ calculate_moving_average data w, x = none) ∧
    (data.length < p + 1 → ∀ x ∈ calculate_rsi data p, x = none) ∧
    (data = [] → get_latest_price data = 0) ∧
    (data.length < 2 → get_price_change data = (0, 0)) ∧
    (data.length < 5 → get_trend data = "无法判断") := by
  refine ⟨?_, ?_, ?_, ?_, ?_, ?_, ?_, ?_⟩
  · rintro ⟨-, i, -, -, h0⟩
    omega
  · rintro ⟨-, i, -, -, h0 | ⟨hl, heq⟩⟩
    · omega
    · have hg := rsi_avg_gain_nonneg data p i
      have hl0 : 0 < rsi_avg_loss data p i :=
        lt_of_le_of_ne (rsi_avg_loss_nonneg data p i) (Ne.symm hl)
      have hgl : 0 ≤ rsi_avg_gain data p i / rsi_avg_loss data p i :=
        div_nonneg hg hl0.le
      linarith
  · rintro ⟨h2, hz⟩
    have hlt : data.length - 2 < data.length := by omega
    have hmem : (closes data).getD (data.length - 2) 0 ∈ closes data := by
      rw [List.getD_eq_getElem _ _ (by simpa [closes] using hlt)]
      exact List.getElem_mem _
    rcases List.mem_map.mp hmem with ⟨r, hr, hcl⟩
    have := hpos r hr
    rw [hcl] at this
    exact absurd hz (by linarith)
  · intro h x hx
    unfold calculate_moving_average at hx
    rw [if_pos h] at hx
    exact List.eq_of_mem_replicate hx
  · intro h x hx
    unfold calculate_rsi at hx
    rw [if_pos h] at hx
    exact List.eq_of_mem_replicate hx
  · rintro rfl
    rfl
  · intro h
    unfold get_price_change
    rw [if_pos h]
  · intro h
    unfold get_trend
    rw [if_pos h]

/-- Witness for C4: none of the raise conditions holds on the three-record
sample with window 2 and period 2. -/
theorem spec_c4_witness :
    ¬ ma_raises sampleData 2 ∧ ¬ rsi_raises sampleData 2 ∧
    ¬ price_change_raises sampleData := by
  have h := spec_c4 sampleData 2 2 (by norm_num) (by norm_num) (by decide)
  exact ⟨h.1, h.2.1, h.2.2.1⟩

/-- Characterization of `get_trend` on inputs with at least 5 records: the
result depends only on the order of the first and last of the 5 most recent
closes (the `/ 4` slope does not change the sign). -/
theorem get_trend_char (data : List DailyRecord) (h5 : 5 ≤ data.length) :
    get_trend data =
      if (recent_prices data).getD 0 0 < (recent_prices data).getD 4 0 then "上升"
      else if (recent_prices data).getD 4 0 < (recent_prices data).getD 0 0 then "下降"
      else "横盘" := by
  unfold get_trend
  rw [if_neg (by omega)]
  have h1 : (0 < ((recent_prices data).getD 4 0 - (recent_prices data).getD 0 0) / 4) ↔
      (recent_prices data).getD 0 0 < (recent_prices data).getD 4 0 := by
    rw [lt_div_iff₀ (by norm_num : (0 : ℚ) < 4)]
    constructor <;> intro h <;> linarith
  have h2 : (((recent_prices data).getD 4 0 - (recent_prices data).getD 0 0) / 4 < 0) ↔
      (recent_prices data).getD 4 0 < (recent_prices data).getD 0 0 := by
    rw [div_lt_iff₀ (by norm_num : (0 : ℚ) < 4)]
    constructor <;> intro h <;> linarith
  by_cases hab : (recent_prices data).getD 0 0 < (recent_prices data).getD 4 0
  · rw [if_pos (h1.mpr hab), if_pos hab]
  · rw [if_neg (fun h => hab (h1.mp h)), if_neg hab]
    by_cases hba : (recent_prices data).getD 4 0 < (recent_prices data).getD 0 0
    · rw [if_pos (h2.mpr hba), if_pos hba]
    · rw [if_neg (fun h => hba (h2.mp h)), if_neg hba]

/-- Claim C6: `get_trend` is the indeterminate label for fewer than 5 records;
with at least 5 records it is rising/falling/flat exactly by the order of the
first and last of the 5 most recent closes (slope `(last - first)/4`), and any
two inputs (e.g. one obtained from the other by altering the middle closes)
whose endpoint comparisons agree get the same trend. -/
theorem spec_c6 (data data' : List DailyRecord) :
    (data.length < 5 → get_trend data = "无法判断") ∧
    (5 ≤ data.length →
      get_trend data =
        if (recent_prices data).getD 0 0 < (recent_prices data).getD 4 0 then "上升"
        else if (recent_prices data).getD 4 0 < (recent_prices data).getD 0 0 then "下降"
        else "横盘") ∧
    (5 ≤ data.length → 5 ≤ data'.length →
      ((recent_prices data).getD 0 0 < (recent_prices data).getD 4 0 ↔
        (recent_prices data').getD 0 0 < (recent_prices data').getD 4 0) →
      ((recent_prices data).getD 4 0 < (recent_prices data).getD 0 0 ↔
        (recent_prices data').getD 4 0 < (recent_prices data').getD 0 0) →
      get_trend data = get_trend data') := by
  refine ⟨fun h => by unfold get_trend; rw [if_pos h], fun h5 => get_trend_char data h5, ?_⟩
  intro h5 h5' hiff1 hiff2
  rw [get_trend_char data h5, get_trend_char data' h5']
  by_cases h1 : (recent_prices data).getD 0 0 < (recent_prices data).getD 4 0
  · rw [if_pos h1, if_pos (hiff1.mp h1)]
  · rw [if_neg h1, if_neg (fun h => h1 (hiff1.mpr h))]
    by_cases h2 : (recent_prices data).getD 4 0 < (recent_prices data).getD 0 0
    · rw [if_pos h2, if_pos (hiff2.mp h2)]
    · rw [if_neg h2, if_neg (fun h => h2 (hiff2.mpr h))]

/-- Witness for C6: closes `1, 2, 3, 4, 5` and closes `1, 50, 1/2, 30, 5`
(same endpoints, different middles) both yield the rising label. -/
theorem spec_c6_witness :
    get_trend trendDataA = get_trend trendDataB ∧ get_trend trendDataA = "上升" := by
  constructor
  · exact (spec_c6 trendDataA trendDataB).2.2 (by decide) (by decide) (by decide) (by decide)
  · rw [(spec_c6 trendDataA trendDataA).2.1 (by decide)]
    norm_num [recent_prices, closes, trendDataA]

/-- Case analysis of the defined entries of `calculate_rsi`: any defined value
is `100` (pure-uptrend branch) or a rounded `100 - 100/(1 + rs)` value with a
nonzero average loss. -/
theorem rsi_mem_cases {data : List DailyRecord} {period : ℕ} {x : ℚ}
    (hx : some x ∈ calculate_rsi data period) :
    x = 100 ∨ ∃ i, rsi_avg_loss data period i ≠ 0 ∧
      x = round2 (100 - 100 / (1 + rsi_avg_gain data period i / rsi_avg_loss data period i)) := by
  unfold calculate_rsi at hx
  by_cases h : data.length < period + 1
  · rw [if_pos h] at hx
    exact absurd (List.eq_of_mem_replicate hx) (by simp)
  · rw [if_neg h] at hx
    rcases List.mem_map.mp hx with ⟨i, _, heq⟩
    by_cases h1 : i < period
    · rw [if_pos h1] at heq
      exact absurd heq (by simp)
    · rw [if_neg h1] at heq
      by_cases h2 : rsi_avg_loss data period i = 0
      · rw [if_pos h2] at heq
        exact Or.inl (Option.some_inj.mp heq).symm
      · rw [if_neg h2] at heq
        exact Or.inr ⟨i, h2, (Option.some_inj.mp heq).symm⟩

/-- Claim C8: every defined value produced by `calculate_rsi` lies in the
closed interval `[0, 100]`, for every input sequence and positive period. -/
theorem spec_c8 (data : List DailyRecord) (period : ℕ) (_hp : 0 < period) (x : ℚ)
    (hx : some x ∈ calculate_rsi data period) : 0 ≤ x ∧ x ≤ 100 := by
  rcases rsi_mem_cases hx with rfl | ⟨i, hl, rfl⟩
  · norm_num
  · have hg := rsi_avg_gain_nonneg data period i
    have hl0 : 0 < rsi_avg_loss data period i :=
      lt_of_le_of_ne (rsi_avg_loss_nonneg data period i) (Ne.symm hl)
    have hgl : 0 ≤ rsi_avg_gain data period i / rsi_avg_loss data period i :=
      div_nonneg hg hl0.le
    have hq1 : 0 < 100 / (1 + rsi_avg_gain data period i / rsi_avg_loss data period i) := by
      positivity
    have hq2 : 100 / (1 + rsi_avg_gain data period i / rsi_avg_loss data period i) ≤ 100 :=
      div_le_self (by norm_num) (by linarith)
    exact ⟨round2_nonneg (by linarith), round2_le_100 (by linarith)⟩

/-- Witness for C8: with closes `1, 2, 3, 4, 5` and period 2 the value `100`
is produced (pure uptrend) and lies in `[0, 100]`. -/
theorem spec_c8_witness :
    some (100 : ℚ) ∈ calculate_rsi trendDataA 2 ∧
    (0 : ℚ) ≤ 100 ∧ (100 : ℚ) ≤ 100 := by
  have hmem : some (100 : ℚ) ∈ calculate_rsi trendDataA 2 := by
    norm_num [calculate_rsi, rsi_avg_loss, rsi_recent_deltas, rsi_deltas, closes, trendDataA,
      List.range_succ, List.filter]
  exact ⟨hmem, spec_c8 trendDataA 2 (by norm_num) 100 hmem⟩

/-- Claim C3 fails at the code: on a flat series (five records, every close
`100`) the renderer does not produce a single-row rendering — the
`scaled_prices` comprehension divides by `price_range = max_price - min_price
= 0` and raises `ZeroDivisionError`. -/
theorem spec_c3_failing :
    render_chart flatData = Except.error "ZeroDivisionError" := by
  norm_num [render_chart, closes, flatData, list_min, list_max]

/-- Claim C5 fails at the code: on a nonempty non-flat sequence of length 3
(at most 4) the renderer does not complete — the `date_labels` comprehension
computes `i % (len(dates) // 5)` with `len(dates) // 5 == 0` and raises
`ZeroDivisionError`. -/
theorem spec_c5_failing :
    render_chart sampleData = Except.error "ZeroDivisionError" := by
  norm_num [render_chart, closes, sampleData, list_min, list_max, min_def, max_def]

/-- Claim C9: for every monotonically non-decreasing non-flat price series,
the row index marked by the chart renderer is non-decreasing as the column
index increases left to right. -/
theorem spec_c9 (data : List DailyRecord) (c₁ c₂ : ℕ)
    (hsort : List.Sorted (· ≤ ·) (closes data))
    (hflat : list_min (closes data) ≠ list_max (closes data))
    (h12 : c₁ ≤ c₂) (h2 : c₂ < min 80 (closes data).length) :
    chart_row data c₁ ≤ chart_row data c₂ := by
  have hne : closes data ≠ [] := by
    intro h
    rw [h] at hflat
    exact hflat rfl
  have hn : 0 < (closes data).length := List.length_pos.mpr hne
  have hwpos : 0 < min 80 (closes data).length := by omega
  have hidx_le : chart_idx (closes data).length (min 80 (closes data).length) c₁ ≤
      chart_idx (closes data).length (min 80 (closes data).length) c₂ :=
    Nat.div_le_div_right (Nat.mul_le_mul_right _ h12)
  have hidx2 : chart_idx (closes data).length (min 80 (closes data).length) c₂ <
      (closes data).length := by
    unfold chart_idx
    rw [Nat.div_lt_iff_lt_mul hwpos]
    calc c₂ * (closes data).length < min 80 (closes data).length * (closes data).length :=
          (Nat.mul_lt_mul_right hn).mpr h2
      _ = (closes data).length * min 80 (closes data).length := Nat.mul_comm _ _
  have hidx1 : chart_idx (closes data).length (min 80 (closes data).length) c₁ <
      (closes data).length := lt_of_le_of_lt hidx_le hidx2
  have hmono : (closes data).getD (chart_idx (closes data).length
        (min 80 (closes data).length) c₁) 0 ≤
      (closes data).getD (chart_idx (closes data).length (min 80 (closes data).length) c₂) 0 :=
    sorted_getD_mono hsort hidx_le hidx2
  have hr : (0 : ℚ) ≤ list_max (closes data) - list_min (closes data) := by
    have := list_min_le_list_max hne
    linarith
  unfold chart_row chart_scaled
  rw [getD_map_fn _ _ _ 0 hidx1, getD_map_fn _ _ _ 0 hidx2]
  apply round_mono_q
  exact mul_le_mul_of_nonneg_right
    (div_le_div_of_nonneg_right (sub_le_sub_right hmono _) hr) (by norm_num)

/-- Witness for C9: on three records with strictly increasing closes
`100, 101, 102`, the row marked in column 0 is below-or-equal the row marked
in column 2. -/
theorem spec_c9_witness : chart_row sortedData 0 ≤ chart_row sortedData 2 :=
  spec_c9 sortedData 0 2 (by decide) (by decide) (by decide) (by decide)
